import Mathlib

/-
Verification development for the Premium Pilot position-tracking bot
(src/bot.py). The definitions below are a shallow embedding of the parts of
the source relevant to the position store, the symbol normalization, the
decision evaluator, the websocket subscription reconciliation and the JSON
store loader. Python floats are modelled as rationals, Python None as
Option, raised exceptions as Except or as an explicit result component.
-/

namespace Bot

/-! ## Python string primitives -/

/-- Characters stripped by Python str.strip() with no argument (ASCII
whitespace as relevant to this code base: space, tab, newline, carriage
return, vertical tab, form feed). -/
def pyIsSpace (c : Char) : Bool :=
  c == ' ' || c == '\t' || c == '\n' || c == '\r' || c == '\x0b' || c == '\x0c'

/-- Model of Python str.strip(): drop leading and trailing whitespace. -/
def pyStrip (l : List Char) : List Char :=
  ((l.dropWhile pyIsSpace).reverse.dropWhile pyIsSpace).reverse

/-- Model of Python str.upper() on a single character, for the ASCII range
(the ticker strings handled by the bot are ASCII). -/
def pyUpperChar (c : Char) : Char :=
  if 97 ≤ c.toNat ∧ c.toNat ≤ 122 then Char.ofNat (c.toNat - 32) else c

/-- Model of Python str.upper() on a character list. -/
def pyUpper (l : List Char) : List Char := l.map pyUpperChar

/-- Model of Python str.upper() on a String. -/
def pyUpperStr (s : String) : String := String.mk (pyUpper s.data)

/-- The character list of the literal ".US" appended by _norm_us. -/
def dotUS : List Char := ['.', 'U', 'S']

/-- Embedding of _norm_us (src/bot.py lines 189-191):
s.strip().upper() followed by appending the fixed ".US" market suffix. -/
def _norm_us (s : String) : String :=
  String.mk (pyUpper (pyStrip s.data) ++ dotUS)

/-- Embedding of symbol_variants (src/bot.py lines 559-561): the bare
ticker, the ".US"-suffixed form and the "US."-prefixed form. -/
def symbol_variants (s : String) : List String :=
  [String.mk (pyUpper (pyStrip s.data)),
   String.mk (pyUpper (pyStrip s.data)) ++ ".US",
   "US." ++ String.mk (pyUpper (pyStrip s.data))]

/-! ## Decision evaluator -/

/-- Embedding of dist_pct (src/bot.py lines 193-197): the signed percentage
distance from the underlying price u to the strike. The Python code returns
NaN when the division raises (u = 0); NaN is modelled as none, and every
NaN comparison in the source is false, matching how none is consumed
below. -/
def dist_pct (u strike : ℚ) : Option ℚ :=
  if u = 0 then none else some ((strike - u) / u * 100)

/-- Embedding of btc_hit (src/bot.py lines 199-206). The Python guard
"if credit and mid" is float/None truthiness: credit nonzero and mid
present and nonzero. On a hit test it returns (pct >= 50, pct), otherwise
(False, None). -/
def btc_hit (credit : ℚ) (mid : Option ℚ) : Bool × Option ℚ :=
  match mid with
  | none => (false, none)
  | some m =>
    if credit ≠ 0 ∧ m ≠ 0 then
      (decide ((credit - m) / credit * 100 ≥ 50), some ((credit - m) / credit * 100))
    else (false, none)

/-- Embedding of _decision_label (src/bot.py lines 484-490). The source
returns one of four strings; days is the DTE, px the underlying price
(None when unknown), strike the strike price. The Python guard
"px is not None and strike" is None/float truthiness: px present and
strike nonzero. -/
def _decision_label (hit : Bool) (days : ℤ) (px : Option ℚ) (strike : ℚ) : String :=
  if hit then "BTC ✅"
  else if days ≤ 7 then "Watch ⏳"
  else
    let roll : Bool :=
      match px with
      | none => false
      | some p =>
        if strike = 0 then false
        else
          match dist_pct p strike with
          | none => false
          | some away => decide (away ≤ 4)
    if roll then "Roll-watch ↔" else "Hold 🧊"

/-! ## Date parsing (parse_exp_str and friends) -/

/-- Model of Python single-character str.split, used to decompose a date
string at the separator of a strptime format. -/
def splitOnChar (sep : Char) : List Char → List (List Char)
  | [] => [[]]
  | c :: rest =>
    let r := splitOnChar sep rest
    if c = sep then [] :: r
    else
      match r with
      | h :: t => (c :: h) :: t
      | [] => [[c]]

/-- Numeric value of a digit string. -/
def digitsVal (l : List Char) : Nat := l.foldl (fun a c => a * 10 + (c.toNat - 48)) 0

/-- All characters are ASCII digits. -/
def allDigits (l : List Char) : Bool := l.all (fun c => c.isDigit)

/-- Gregorian leap year rule used by Python datetime. -/
def isLeap (y : Nat) : Bool := y % 4 == 0 && (y % 100 != 0 || y % 400 == 0)

/-- Days in a month as validated by the Python datetime constructor. -/
def daysInMonth (y m : Nat) : Nat :=
  if m = 2 then (if isLeap y then 29 else 28)
  else if m = 4 ∨ m = 6 ∨ m = 9 ∨ m = 11 then 30
  else 31

/-- A calendar date as produced by datetime.strptime(...).date(). -/
structure PyDate where
  year : Nat
  month : Nat
  day : Nat
deriving DecidableEq

/-- Calendar validation performed by the datetime constructor: year in
MINYEAR..MAXYEAR, month 1..12, day within the month. Returns none where
Python raises ValueError. -/
def mkValidDate (y m d : Nat) : Option PyDate :=
  if 1 ≤ y ∧ y ≤ 9999 ∧ 1 ≤ m ∧ m ≤ 12 ∧ 1 ≤ d ∧ d ≤ daysInMonth y m then
    some ⟨y, m, d⟩
  else none

/-- A numeric strptime field: all digits with a length between minLen and
maxLen (%Y is exactly 4 digits, %m and %d are 1 or 2 digits). -/
def fieldNat (l : List Char) (minLen maxLen : Nat) : Option Nat :=
  if l ≠ [] ∧ allDigits l ∧ minLen ≤ l.length ∧ l.length ≤ maxLen then some (digitsVal l)
  else none

/-- Model of strptime with a year-month-day format such as "%Y-%m-%d" or
"%Y/%m/%d", for the given separator. -/
def parseYMD (l : List Char) (sep : Char) : Option PyDate :=
  match splitOnChar sep l with
  | [ys, ms, ds] =>
    match fieldNat ys 4 4, fieldNat ms 1 2, fieldNat ds 1 2 with
    | some y, some m, some d => mkValidDate y m d
    | _, _, _ => none
  | _ => none

/-- Model of strptime with a month-day-year format such as "%m-%d-%Y" or
"%m/%d/%Y", for the given separator. -/
def parseMDY (l : List Char) (sep : Char) : Option PyDate :=
  match splitOnChar sep l with
  | [ms, ds, ys] =>
    match fieldNat ys 4 4, fieldNat ms 1 2, fieldNat ds 1 2 with
    | some y, some m, some d => mkValidDate y m d
    | _, _, _ => none
  | _ => none

/-- Model of datetime.fromisoformat(...).date() for date-only inputs: the
extended form YYYY-MM-DD and the basic form YYYYMMDD. Inputs with a time
component are not modelled (they do not occur for expiry strings). -/
def pyFromIsoDate (l : List Char) : Option PyDate :=
  if l.length = 8 ∧ allDigits l then
    mkValidDate (digitsVal (l.take 4)) (digitsVal ((l.drop 4).take 2)) (digitsVal (l.drop 6))
  else
    match splitOnChar '-' l with
    | [ys, ms, ds] =>
      if ys.length = 4 ∧ ms.length = 2 ∧ ds.length = 2
          ∧ allDigits ys ∧ allDigits ms ∧ allDigits ds then
        mkValidDate (digitsVal ys) (digitsVal ms) (digitsVal ds)
      else none
    | _ => none

/-- The ValueError message raised by parse_exp_str (abridged: the source
message interpolates the offending string). -/
def expiryErrMsg : String :=
  "Unrecognized expiry format. Use YYYY-MM-DD or MM-DD-YYYY."

/-- Embedding of parse_exp_str (src/bot.py lines 87-97): strip, then try the
formats "%Y-%m-%d", "%m-%d-%Y", "%m/%d/%Y", "%Y/%m/%d" in order, then
datetime.fromisoformat, else raise ValueError. -/
def parse_exp_str (s : String) : Except String PyDate :=
  let t := pyStrip s.data
  match parseYMD t '-' with
  | some d => .ok d
  | none =>
    match parseMDY t '-' with
    | some d => .ok d
    | none =>
      match parseMDY t '/' with
      | some d => .ok d
      | none =>
        match parseYMD t '/' with
        | some d => .ok d
        | none =>
          match pyFromIsoDate t with
          | some d => .ok d
          | none => .error expiryErrMsg

/-- The ASCII digit character for n % 10. -/
def digitChar (n : Nat) : Char := Char.ofNat (48 + n % 10)

/-- Two-digit zero-padded decimal rendering (strftime %m / %d). -/
def pad2str (n : Nat) : List Char := [digitChar (n / 10), digitChar n]

/-- Four-digit zero-padded decimal rendering (strftime %Y, years <= 9999). -/
def pad4str (n : Nat) : List Char :=
  [digitChar (n / 1000), digitChar (n / 100), digitChar (n / 10), digitChar n]

/-- strftime("%Y-%m-%d") on a parsed date. -/
def fmtISODate (d : PyDate) : String :=
  String.mk (pad4str d.year ++ '-' :: pad2str d.month ++ '-' :: pad2str d.day)

/-- Embedding of iso_exp_str (src/bot.py lines 99-100): canonicalize an
expiry string to ISO form, propagating the parse error. -/
def iso_exp_str (s : String) : Except String String :=
  match parse_exp_str s with
  | .ok d => .ok (fmtISODate d)
  | .error m => .error m

/-! ## Position store -/

/-- An open position dict as built by add_pos / add_csp
(src/bot.py lines 234-242). -/
structure Position where
  id : ℤ
  ticker : String
  strike : ℚ
  contracts : ℤ
  expiry : String
  entry_credit : ℚ
  created_at : String
deriving DecidableEq

/-- The archived dict built by close_pos (src/bot.py lines 289-294): all
fields of the position plus closure metadata. -/
structure ClosedPosition where
  pos : Position
  closed_at : String
  btc_price : Option ℚ
  pnl_pct : Option ℚ
deriving DecidableEq

/-- A per-user bucket: the "cc", "csp" and "closed" collections. -/
structure Bucket where
  cc : List Position
  csp : List Position
  closed : List ClosedPosition
deriving DecidableEq

/-- Python max(l) when l is nonempty, else the default 0. Used both for
max(ids, default=0) in add_pos and for (max(ids) if ids else 0) in
_compute_next_id. -/
def pyMaxD0 (l : List ℤ) : ℤ :=
  match l with
  | [] => 0
  | x :: xs => xs.foldl max x

/-- Embedding of _compute_next_id (src/bot.py lines 108-113): max over the
ids of the open CC, open CSP and closed collections, plus one. -/
def _compute_next_id (b : Bucket) : ℤ :=
  pyMaxD0 (b.cc.map (fun p => p.id) ++ b.csp.map (fun p => p.id)
    ++ b.closed.map (fun a => a.pos.id)) + 1

/-- Python round to even (banker's rounding) on a rational, as used by
round(x, 2) at ties; elsewhere it is rounding to the nearest integer. -/
def roundHalfEven (x : ℚ) : ℤ :=
  let f := ⌊x⌋
  let r := x - (f : ℚ)
  if r < 1/2 then f
  else if 1/2 < r then f + 1
  else if f % 2 = 0 then f else f + 1

/-- Python round(x, 2). -/
def pyRound2 (x : ℚ) : ℚ := (roundHalfEven (x * 100) : ℚ) / 100

/-- Embedding of add_pos (src/bot.py lines 231-244). The first component is
the persisted bucket after the call; the second the returned id or the
raised exception. The id is max(ids of the open CC list, default=0) + 1;
iso_exp_str runs while the new dict literal is built, so a malformed expiry
raises before anything is appended or saved. -/
def add_pos (b : Bucket) (t : String) (s : ℚ) (c : ℤ) (e : String) (cr : ℚ)
    (created_at : String) : Bucket × Except String ℤ :=
  let next_id := pyMaxD0 (b.cc.map (fun p => p.id)) + 1
  match iso_exp_str e with
  | .error m => (b, .error m)
  | .ok iso =>
    let newp : Position :=
      { id := next_id, ticker := pyUpperStr t, strike := s, contracts := c,
        expiry := iso, entry_credit := cr, created_at := created_at }
    ({ b with cc := b.cc ++ [newp] }, .ok next_id)

/-- Embedding of add_csp (src/bot.py lines 246-259): identical to add_pos
but on the "csp" collection. -/
def add_csp (b : Bucket) (t : String) (s : ℚ) (c : ℤ) (e : String) (cr : ℚ)
    (created_at : String) : Bucket × Except String ℤ :=
  let next_id := pyMaxD0 (b.csp.map (fun p => p.id)) + 1
  match iso_exp_str e with
  | .error m => (b, .error m)
  | .ok iso =>
    let newp : Position :=
      { id := next_id, ticker := pyUpperStr t, strike := s, contracts := c,
        expiry := iso, entry_credit := cr, created_at := created_at }
    ({ b with csp := b.csp ++ [newp] }, .ok next_id)

/-- Embedding of rm_pos (src/bot.py lines 261-266): filter the open CC list
by id and report whether anything was removed. -/
def rm_pos (b : Bucket) (pid : ℤ) : Bucket × Bool :=
  ({ b with cc := b.cc.filter (fun p => p.id ≠ pid) },
    decide ((b.cc.filter (fun p => p.id ≠ pid)).length < b.cc.length))

/-- Embedding of _find_pos (src/bot.py lines 224-229): first open CC
position with the given id. -/
def _find_pos (b : Bucket) (pid : ℤ) : Option Position :=
  b.cc.find? (fun p => p.id == pid)

/-- Replace the first position with the given id (the source mutates the
dict returned by _find_pos in place). -/
def updateFirst (l : List Position) (pid : ℤ) (f : Position → Position) : List Position :=
  match l with
  | [] => []
  | q :: rest => if q.id = pid then f q :: rest else q :: updateFirst rest pid f

/-- Embedding of edit_pos (src/bot.py lines 268-278). The first component is
the persisted bucket after the call; the second the returned bool or the
exception raised by iso_exp_str on a malformed expiry (in which case the
source raises before _save, leaving the persisted bucket unchanged). -/
def edit_pos (b : Bucket) (pid : ℤ) (ticker : Option String) (strike : Option ℚ)
    (contracts : Option ℤ) (expiry : Option String) (credit : Option ℚ) :
    Bucket × Except String Bool :=
  match _find_pos b pid with
  | none => (b, .ok false)
  | some _ =>
    match (match expiry with
           | none => Except.ok Option.none
           | some e => (iso_exp_str e).map Option.some) with
    | .error m => (b, .error m)
    | .ok isoOpt =>
      ({ b with cc := updateFirst b.cc pid (fun p =>
          { p with
            ticker := match ticker with | some t => pyUpperStr t | none => p.ticker,
            strike := strike.getD p.strike,
            contracts := contracts.getD p.contracts,
            expiry := isoOpt.getD p.expiry,
            entry_credit := credit.getD p.entry_credit }) },
        .ok true)

/-- Remove the first position with the given id, keeping the order of the
rest: the idx = next(...) followed by cc.pop(idx) of close_pos. -/
def popById : List Position → ℤ → Option (Position × List Position)
  | [], _ => none
  | q :: rest, pid =>
    if q.id = pid then some (q, rest)
    else
      match popById rest pid with
      | some (r, l2) => some (r, q :: l2)
      | none => none

/-- The archived row built inside close_pos (src/bot.py lines 285-294): the
closed position dict with closure timestamp, the close price paid, and the
pnl percentage (entry_credit - btc_price) / entry_credit * 100 rounded to
2 decimals; with no close price, or when the division raises
ZeroDivisionError (entry_credit = 0, caught by the source), pnl is None. -/
def closeArchived (p : Position) (btc_price : Option ℚ) (closed_at : String) :
    ClosedPosition :=
  { pos := p, closed_at := closed_at, btc_price := btc_price,
    pnl_pct := (match btc_price with
      | none => none
      | some pr => if p.entry_credit = 0 then none
                   else some ((p.entry_credit - pr) / p.entry_credit * 100)).map pyRound2 }

/-- Embedding of close_pos (src/bot.py lines 280-297). The first component
is the persisted bucket after the call; the second the archived row, or
none when the id was not found (in which case nothing is saved). -/
def close_pos (b : Bucket) (pid : ℤ) (btc_price : Option ℚ) (closed_at : String) :
    Bucket × Option ClosedPosition :=
  match popById b.cc pid with
  | none => (b, none)
  | some (p, rest) =>
    ({ b with cc := rest, closed := b.closed ++ [closeArchived p btc_price closed_at] },
      some (closeArchived p btc_price closed_at))

/-! ## Websocket subscription management -/

/-- Embedding of all_symbols_in_positions (src/bot.py lines 563-567): the
normalized tickers of every open covered call across all users, with falsy
(empty) entries filtered out. The Store snapshot is passed explicitly; the
source reads it from disk via _load. -/
def all_symbols_in_positions (users : List (String × Bucket)) : Finset String :=
  (((users.map Prod.snd).flatMap
      (fun b => b.cc.map (fun p => _norm_us p.ticker))).toFinset).filter
    (fun s => s ≠ "")

/-- Embedding of refresh_ws_subscriptions (src/bot.py lines 569-579): diff
the wanted set against the tracked subscribed set, subscribe the additions,
unsubscribe the removals, and return the updated tracked set _SUBS. -/
def refresh_ws_subscriptions (subs want : Finset String) : Finset String :=
  (subs ∪ (want \ subs)) \ (subs \ want)

/-- The module-level mutable state touched by the streaming client: _SUBS,
PRICE_CACHE and the _RESUB_REQUESTED event flag. -/
structure StreamState where
  subs : Finset String
  cache : String → Option ℚ
  resub_requested : Bool

/-- Embedding of request_ws_resub (src/bot.py lines 208-209): set the
resubscription-requested event. -/
def request_ws_resub (st : StreamState) : StreamState :=
  { st with resub_requested := true }

/-- An inbound websocket message: invalid is a frame on which json.loads
raises (silently swallowed); fields carries the optional "s", "code" and
"symbol" string fields and the optional numeric "p" and "close" fields. -/
inductive WsMsg where
  | invalid
  | fields (s code symbol : Option String) (p close : Option ℚ)

/-- First truthy value of a chain of Python or-expressions over optional
strings (None and the empty string are falsy). -/
def firstTruthyStr : List (Option String) → Option String
  | [] => none
  | some x :: rest => if x = "" then firstTruthyStr rest else some x
  | none :: rest => firstTruthyStr rest

/-- Python a or b over optional numbers: a when present and nonzero,
otherwise b. -/
def pyOrNum (a b : Option ℚ) : Option ℚ :=
  match a with
  | some v => if v = 0 then b else some v
  | none => b

/-- Embedding of one iteration of the inner streaming loop of ws_loop
(src/bot.py lines 588-597): parse the message, and when it carries a truthy
symbol and a numeric price, update PRICE_CACHE for that symbol. The loop
body never reads _RESUB_REQUESTED and never touches _SUBS. -/
def ws_handle_message (st : StreamState) (msg : WsMsg) : StreamState :=
  match msg with
  | .invalid => st
  | .fields s code symbol p close =>
    match firstTruthyStr [s, code, symbol], pyOrNum p close with
    | some sy, some v =>
      { st with cache := fun x => if x = sy then some v else st.cache x }
    | _, _ => st

/-! ## JSON store loading -/

/-- A JSON value as produced by json.loads. -/
inductive JValue where
  | jnull
  | jbool (b : Bool)
  | jnum (q : ℚ)
  | jstr (s : String)
  | jarr (elems : List JValue)
  | jobj (fields : List (String × JValue))

/-- Lookup in a JSON object (dict keys are unique, so first match). -/
def jFind (fields : List (String × JValue)) (k : String) : Option JValue :=
  (fields.find? (fun kv => kv.1 == k)).map Prod.snd

/-- Python dict.get(k, default). -/
def jGet (fields : List (String × JValue)) (k : String) (dflt : JValue) : JValue :=
  (jFind fields k).getD dflt

/-- Python k in dict. -/
def jHasKey (fields : List (String × JValue)) (k : String) : Bool :=
  (jFind fields k).isSome

/-- Python dict.setdefault(k, v). -/
def jSetDefault (fields : List (String × JValue)) (k : String) (v : JValue) :
    List (String × JValue) :=
  if jHasKey fields k then fields else fields ++ [(k, v)]

/-- Python dict[k] = v for an existing key. -/
def jSetKey (fields : List (String × JValue)) (k : String) (v : JValue) :
    List (String × JValue) :=
  fields.map (fun kv => if kv.1 = k then (kv.1, v) else kv)

/-- The per-user bucket repair in _load (src/bot.py lines 55-61): a non-dict
bucket is replaced by an empty one, a dict bucket gets the three
collections set-defaulted. -/
def _ensure_bucket (v : JValue) : JValue :=
  match v with
  | .jobj fs =>
    .jobj (jSetDefault (jSetDefault (jSetDefault fs "cc" (.jarr [])) "csp" (.jarr []))
      "closed" (.jarr []))
  | _ => .jobj [("cc", .jarr []), ("csp", .jarr []), ("closed", .jarr [])]

/-- The empty store document returned by _load on any failure. -/
def emptyStoreJ : JValue := .jobj [("users", .jobj [])]

/-- Embedding of _load (src/bot.py lines 42-64). The file content is an
optional string (none models an unreadable file); json.loads is the
external parse oracle (none models a JSONDecodeError). Every raised
exception is caught and produces the empty store; the encode/decode with
errors="ignore" of the source is the identity on already-decoded text. -/
def _load (parse : String → Option JValue) (file : Option String) : JValue :=
  match file with
  | none => .jobj [("users", .jobj [])]
  | some text =>
    if String.mk (pyStrip text.data) = "" then .jobj [("users", .jobj [])]
    else
      match parse (String.mk (pyStrip text.data)) with
      | none => .jobj [("users", .jobj [])]
      | some (.jobj fields) =>
        let fields2 :=
          if jHasKey fields "users" then fields
          else
            [("users", .jobj [("legacy", .jobj
              [("cc", jGet fields "cc" (.jarr [])), ("csp", .jarr []),
               ("closed", jGet fields "closed" (.jarr []))])])]
        match jGet fields2 "users" (.jobj []) with
        | .jobj users =>
          .jobj (jSetKey fields2 "users"
            (.jobj (users.map (fun kv => (kv.1, _ensure_bucket kv.2)))))
        | _ => .jobj [("users", .jobj [])]
      | some _ => .jobj [("users", .jobj [])]

/-- Whether a JSON value is a dict (the isinstance(data, dict) check). -/
def isJObj : JValue → Bool
  | .jobj _ => true
  | _ => false

/-! ## Concrete fixtures used by the theorems -/

/-- The covered call of the specification scenario: SOFI 30C x2,
expiry 2025-11-15, entry credit 0.66. -/
def sofiPos : Position :=
  { id := 1, ticker := "SOFI", strike := 30, contracts := 2,
    expiry := "2025-11-15", entry_credit := 66/100, created_at := "t0" }

/-- A bucket holding only the scenario covered call. -/
def sofiBucket : Bucket := ⟨[sofiPos], [], []⟩

/-- The archived row produced by closing the scenario position without a
close price. -/
def sofiArch : ClosedPosition :=
  { pos := sofiPos, closed_at := "t2", btc_price := none, pnl_pct := none }

/-- The covered call added after the close in the id-reuse scenario. -/
def sofiPos2 : Position :=
  { id := 1, ticker := "SOFI", strike := 31, contracts := 1,
    expiry := "2025-12-20", entry_credit := 1/2, created_at := "t3" }

/-- A bucket whose only position is a cash-secured put with id 1. -/
def cspOnlyBucket : Bucket :=
  ⟨[], [{ id := 1, ticker := "SOFI", strike := 15, contracts := 1,
          expiry := "2025-12-20", entry_credit := 45/100, created_at := "t" }], []⟩

/-! ## Support lemmas -/

theorem dropWhile_head?_false (p : Char → Bool) (l : List Char) (c : Char)
    (h : (l.dropWhile p).head? = some c) : p c = false := by
  induction l with
  | nil => simp [List.dropWhile] at h
  | cons a t ih =>
    rw [List.dropWhile_cons] at h
    by_cases hp : p a
    · simp [hp] at h; exact ih h
    · simp [hp] at h; subst h; simpa using hp

theorem getLast?_of_suffix {q l : List Char} (hs : q <:+ l) (hq : q ≠ []) :
    q.getLast? = l.getLast? := by
  obtain ⟨u, rfl⟩ := hs
  exact (List.getLast?_append_of_ne_nil u hq).symm

theorem pyStrip_head?_false (l : List Char) (c : Char)
    (h : (pyStrip l).head? = some c) : pyIsSpace c = false := by
  unfold pyStrip at h
  rw [List.head?_reverse] at h
  have hqne : (l.dropWhile pyIsSpace).reverse.dropWhile pyIsSpace ≠ [] := by
    intro h0; rw [h0] at h; simp at h
  rw [getLast?_of_suffix (List.dropWhile_suffix pyIsSpace) hqne,
    List.getLast?_reverse] at h
  exact dropWhile_head?_false pyIsSpace l c h

theorem pyStrip_getLast?_false (l : List Char) (c : Char)
    (h : (pyStrip l).getLast? = some c) : pyIsSpace c = false := by
  unfold pyStrip at h
  rw [List.getLast?_reverse] at h
  exact dropWhile_head?_false pyIsSpace _ c h

theorem pyStrip_eq_self (m : List Char)
    (h1 : ∀ c, m.head? = some c → pyIsSpace c = false)
    (h2 : ∀ c, m.getLast? = some c → pyIsSpace c = false) : pyStrip m = m := by
  have hd : m.dropWhile pyIsSpace = m := by
    cases m with
    | nil => rfl
    | cons a t => simp [List.dropWhile_cons, h1 a rfl]
  unfold pyStrip
  rw [hd]
  have hrev : m.reverse.dropWhile pyIsSpace = m.reverse := by
    cases hm : m.reverse with
    | nil => rfl
    | cons a t =>
      have ha : m.getLast? = some a := by rw [← List.head?_reverse, hm]; rfl
      rw [List.dropWhile_cons]
      simp [h2 a ha]
  rw [hrev, List.reverse_reverse]

theorem toNat_ofNat_upper (k : Nat) (h1 : 65 ≤ k) (h2 : k ≤ 90) :
    (Char.ofNat k).toNat = k := by
  interval_cases k <;> rfl

theorem pyUpperChar_of_not_lower (c : Char) (h : ¬(97 ≤ c.toNat ∧ c.toNat ≤ 122)) :
    pyUpperChar c = c := by
  unfold pyUpperChar; rw [if_neg h]

theorem pyUpperChar_toNat_of_lower (c : Char) (h : 97 ≤ c.toNat ∧ c.toNat ≤ 122) :
    (pyUpperChar c).toNat = c.toNat - 32 := by
  unfold pyUpperChar; rw [if_pos h]
  exact toNat_ofNat_upper _ (by omega) (by omega)

theorem pyUpperChar_idem (c : Char) : pyUpperChar (pyUpperChar c) = pyUpperChar c := by
  by_cases h : 97 ≤ c.toNat ∧ c.toNat ≤ 122
  · apply pyUpperChar_of_not_lower
    rw [pyUpperChar_toNat_of_lower c h]
    omega
  · rw [pyUpperChar_of_not_lower c h]
    exact pyUpperChar_of_not_lower c h

theorem pyIsSpace_le32 (c : Char) (h : pyIsSpace c = true) : c.toNat ≤ 32 := by
  unfold pyIsSpace at h
  simp only [Bool.or_eq_true, beq_iff_eq] at h
  rcases h with ((((h | h) | h) | h) | h) | h <;> subst h <;> decide

theorem pyIsSpace_false_of_gt32 (c : Char) (h : 32 < c.toNat) : pyIsSpace c = false := by
  cases hsp : pyIsSpace c with
  | false => rfl
  | true => exact absurd (pyIsSpace_le32 c hsp) (by omega)

theorem pyIsSpace_pyUpperChar (c : Char) :
    pyIsSpace (pyUpperChar c) = pyIsSpace c := by
  by_cases h : 97 ≤ c.toNat ∧ c.toNat ≤ 122
  · rw [pyIsSpace_false_of_gt32 c (by omega),
      pyIsSpace_false_of_gt32 _ (by rw [pyUpperChar_toNat_of_lower c h]; omega)]
  · rw [pyUpperChar_of_not_lower c h]

theorem pyUpper_idem (l : List Char) : pyUpper (pyUpper l) = pyUpper l := by
  induction l with
  | nil => rfl
  | cons a t ih => simp [pyUpper] at ih ⊢; exact ⟨pyUpperChar_idem a, ih⟩

theorem pyStrip_norm_fix (a : List Char) :
    pyStrip (pyUpper (pyStrip a) ++ dotUS) = pyUpper (pyStrip a) ++ dotUS := by
  apply pyStrip_eq_self
  · intro c h
    cases hsp : pyStrip a with
    | nil => rw [hsp] at h; simp [pyUpper, dotUS] at h; subst h; rfl
    | cons x t =>
      rw [hsp] at h
      simp [pyUpper, dotUS] at h
      subst h
      rw [pyIsSpace_pyUpperChar]
      exact pyStrip_head?_false a x (by rw [hsp]; rfl)
  · intro c h
    rw [List.getLast?_append_of_ne_nil _ (by simp [dotUS])] at h
    rw [show dotUS.getLast? = some 'S' from rfl] at h
    cases h; rfl

/-! ## Claim C3: symbol normalization -/

/-- C3 counterexample: the claim that _norm_us is idempotent and maps the
three spelling variants of an underlying to the same key is false at the
concrete input "SOFI": a second application appends a second ".US" suffix,
and the suffixed variant does not normalize to the bare variant's key. -/
theorem c3_normalize_counterexample :
    _norm_us (_norm_us "SOFI") ≠ _norm_us "SOFI"
    ∧ _norm_us "SOFI.US" ≠ _norm_us "SOFI" := by
  exact ⟨by decide, by decide⟩

/-- C3 amended: _norm_us uppercases, strips and unconditionally appends
".US", so it is never idempotent: for every string s,
_norm_us (_norm_us s) equals _norm_us s with a second ".US" appended, and
therefore differs from _norm_us s; the three spelling variants of a ticker
normalize to three pairwise distinct keys. -/
theorem c3_normalize_amended :
    (∀ s : String, _norm_us (_norm_us s) = _norm_us s ++ ".US"
      ∧ _norm_us (_norm_us s) ≠ _norm_us s)
    ∧ _norm_us "SOFI" ≠ _norm_us "SOFI.US"
    ∧ _norm_us "SOFI" ≠ _norm_us "US.SOFI"
    ∧ _norm_us "SOFI.US" ≠ _norm_us "US.SOFI" := by
  refine ⟨?_, by decide, by decide, by decide⟩
  intro s
  have key : _norm_us (_norm_us s)
      = String.mk ((pyUpper (pyStrip s.data) ++ dotUS) ++ dotUS) := by
    show String.mk (pyUpper (pyStrip (pyUpper (pyStrip s.data) ++ dotUS)) ++ dotUS) = _
    rw [pyStrip_norm_fix]
    rw [show pyUpper (pyUpper (pyStrip s.data) ++ dotUS)
        = pyUpper (pyUpper (pyStrip s.data)) ++ pyUpper dotUS from List.map_append _ _ _]
    rw [pyUpper_idem]
    rw [show pyUpper dotUS = dotUS from rfl]
  constructor
  · rw [key]; rfl
  · rw [key]
    intro hcontra
    have hdata : (pyUpper (pyStrip s.data) ++ dotUS) ++ dotUS
        = pyUpper (pyStrip s.data) ++ dotUS := congrArg String.data hcontra
    have hlen := congrArg List.length hdata
    simp [dotUS] at hlen

/-- C3 witness: the amended statement evaluated at a concrete ticker. -/
theorem c3_normalize_amended_witness :
    _norm_us (_norm_us "ABC") = _norm_us "ABC" ++ ".US"
    ∧ _norm_us (_norm_us "ABC") ≠ _norm_us "ABC" :=
  c3_normalize_amended.1 "ABC"

/-! ## Claim C1: buy-to-close ignores days to expiry -/

/-- C1 (code bug exhibit): the label is "BTC ✅" whenever the hit flag is
set, for every value of days_to_expiry; in particular a position with
profit_pct = 99 and days_to_expiry = 8 is labelled buy-to-close, although
the documented rule (and the claim) requires days_to_expiry <= 7. -/
theorem c1_btc_label_ignores_dte :
    (∀ (days : ℤ) (px : Option ℚ) (strike : ℚ),
      _decision_label true days px strike = "BTC ✅")
    ∧ (btc_hit 1 (some (1/100))).2 = some 99
    ∧ _decision_label (btc_hit 1 (some (1/100))).1 8 (some 10) 30 = "BTC ✅" := by
  refine ⟨fun days px strike => rfl, ?_, ?_⟩
  · simp only [btc_hit]
    rw [if_pos (by norm_num)]
    norm_num
  · have h1 : (btc_hit 1 (some (1/100))).1 = true := by
      simp only [btc_hit]
      rw [if_pos (by norm_num)]
      show decide ((1 - 1/100 : ℚ) / 1 * 100 ≥ 50) = true
      rw [decide_eq_true_eq]
      norm_num
    rw [h1]
    rfl

/-! ## Claim C2: id allocation reuses ids after a close -/

/-- C2 (code bug exhibit): starting from an empty bucket, adding a covered
call allocates id 1; closing it moves id 1 into the closed collection; a
subsequent add allocates id 1 again, because add_pos takes the max over the
open CC list only — while _compute_next_id, which looks across all three
collections exactly as the claim states, would have produced 2. -/
theorem c2_add_pos_reuses_id :
    add_pos ⟨[], [], []⟩ "SOFI" 30 2 "2025-11-15" (66/100) "t1"
      = (⟨[{ sofiPos with created_at := "t1" }], [], []⟩, Except.ok 1)
    ∧ close_pos ⟨[sofiPos], [], []⟩ 1 none "t2" = (⟨[], [], [sofiArch]⟩, some sofiArch)
    ∧ (⟨[], [], [sofiArch]⟩ : Bucket).closed.map (fun a => a.pos.id) = [1]
    ∧ _compute_next_id ⟨[], [], [sofiArch]⟩ = 2
    ∧ add_pos ⟨[], [], [sofiArch]⟩ "SOFI" 31 1 "2025-12-20" (1/2) "t3"
      = (⟨[sofiPos2], [], [sofiArch]⟩, Except.ok 1) := by
  exact ⟨rfl, rfl, rfl, rfl, rfl⟩

/-! ## Claim C8: roll-watch -/

/-- C8 counterexample: with the hit flag clear, the underlying exactly at
the strike (signed distance 0 <= 4) and 5 days to expiry, the claim says
the label is roll-watch, but the code returns "Watch ⏳" because the
days <= 7 branch precedes the distance check. -/
theorem c8_rollwatch_counterexample :
    dist_pct 100 100 = some 0
    ∧ _decision_label false 5 (some 100) 100 = "Watch ⏳"
    ∧ _decision_label false 5 (some 100) 100 ≠ "Roll-watch ↔" := by
  refine ⟨?_, rfl, by decide⟩
  rw [dist_pct, if_neg (by norm_num)]
  norm_num

/-- C8 amended: when the hit flag is clear, the label is "Roll-watch ↔"
exactly when days_to_expiry > 7, the underlying price is known and nonzero,
the strike is nonzero, and the signed distance
(strike - price) / price * 100 is <= 4 (so a price far above the strike
still yields roll-watch); when days_to_expiry <= 7 the label is "Watch ⏳"
regardless of the distance. -/
theorem c8_rollwatch_amended :
    ∀ (days : ℤ) (px : Option ℚ) (strike : ℚ),
      (days ≤ 7 → _decision_label false days px strike = "Watch ⏳")
      ∧ (7 < days →
          (_decision_label false days px strike = "Roll-watch ↔"
            ↔ ∃ p, px = some p ∧ strike ≠ 0 ∧ p ≠ 0 ∧ (strike - p) / p * 100 ≤ 4)) := by
  intro days px strike
  constructor
  · intro h
    simp [_decision_label, h]
  · intro h
    have hn : ¬ days ≤ 7 := by omega
    simp only [_decision_label, if_neg hn, Bool.false_eq_true, if_false]
    cases px with
    | none => simp
    | some p =>
      by_cases hs : strike = 0
      · simp [hs]
      · by_cases hp : p = 0
        · simp [dist_pct, hp, hs]
        · simp only [dist_pct, if_neg hs, if_neg hp]
          by_cases hle : (strike - p) / p * 100 ≤ 4
          · simp [hle]
            exact ⟨hs, hp⟩
          · simp [hle]

/-- C8 witness: 30 days out, price 100 far above strike 10 gives a signed
distance of -90 percent, which satisfies the threshold, and the label is
roll-watch. -/
theorem c8_rollwatch_amended_witness :
    _decision_label false 30 (some 100) 10 = "Roll-watch ↔" := by
  have h := (c8_rollwatch_amended 30 (some 100) 10).2 (by norm_num)
  exact h.mpr ⟨100, rfl, by norm_num, by norm_num, by norm_num⟩

/-! ## Claim C4: the resubscription signal is never consumed -/

theorem ws_handle_message_frame (st : StreamState) (msg : WsMsg) :
    (ws_handle_message st msg).subs = st.subs
    ∧ (ws_handle_message st msg).resub_requested = st.resub_requested := by
  cases msg with
  | invalid => exact ⟨rfl, rfl⟩
  | fields s code symbol p close =>
    simp only [ws_handle_message]
    cases firstTruthyStr [s, code, symbol] <;> cases pyOrNum p close <;> exact ⟨rfl, rfl⟩

/-- C4 (code bug exhibit): raising the resubscription signal is idempotent,
but the streaming loop body never consumes it: after the signal is raised,
processing any sequence of inbound messages leaves the tracked subscribed
set exactly as it was and the signal still pending — no reconciliation pass
ever happens on the live connection, contrary to the claim. -/
theorem c4_resub_signal_never_consumed :
    ∀ (st : StreamState) (msgs : List WsMsg),
      request_ws_resub (request_ws_resub st) = request_ws_resub st
      ∧ (msgs.foldl ws_handle_message (request_ws_resub st)).subs = st.subs
      ∧ (msgs.foldl ws_handle_message (request_ws_resub st)).resub_requested = true := by
  intro st msgs
  have key : ∀ (l : List WsMsg) (s0 : StreamState),
      (l.foldl ws_handle_message s0).subs = s0.subs
      ∧ (l.foldl ws_handle_message s0).resub_requested = s0.resub_requested := by
    intro l
    induction l with
    | nil => intro s0; exact ⟨rfl, rfl⟩
    | cons m t ih =>
      intro s0
      have h1 := ws_handle_message_frame s0 m
      have h2 := ih (ws_handle_message s0 m)
      exact ⟨h2.1.trans h1.1, h2.2.trans h1.2⟩
  have h := key msgs (request_ws_resub st)
  exact ⟨rfl, h.1, h.2⟩

/-! ## Claim C5: the wanted set and one reconciliation pass -/

theorem refresh_eq_want (subs want : Finset String) :
    refresh_ws_subscriptions subs want = want := by
  unfold refresh_ws_subscriptions
  ext x
  simp only [Finset.mem_sdiff, Finset.mem_union]
  tauto

theorem norm_us_ne_empty (t : String) : _norm_us t ≠ "" := by
  intro h
  have hdata : pyUpper (pyStrip t.data) ++ dotUS = [] := congrArg String.data h
  simp [dotUS] at hdata

theorem all_symbols_eq_list (users : List (String × Bucket)) :
    all_symbols_in_positions users
      = ((users.map Prod.snd).flatMap
          (fun b => b.cc.map (fun p => _norm_us p.ticker))).toFinset := by
  unfold all_symbols_in_positions
  ext x
  simp only [Finset.mem_filter, List.mem_toFinset]
  constructor
  · intro h; exact h.1
  · intro h
    refine ⟨h, ?_⟩
    simp only [List.mem_flatMap, List.mem_map] at h
    obtain ⟨b, _, p, _, rfl⟩ := h
    exact norm_us_ne_empty _

/-- C5: after one reconciliation pass the tracked subscribed set equals the
wanted set, which is exactly the set of normalized tickers of all open
covered calls across all users; the cash-secured-put collections contribute
nothing to it; and with no open covered calls the wanted set is empty, so
the pass unsubscribes every previously subscribed symbol. -/
theorem c5_wanted_set_reconciliation :
    ∀ (users : List (String × Bucket)) (subs : Finset String),
      refresh_ws_subscriptions subs (all_symbols_in_positions users)
        = all_symbols_in_positions users
      ∧ all_symbols_in_positions users
        = ((users.map Prod.snd).flatMap
            (fun b => b.cc.map (fun p => _norm_us p.ticker))).toFinset
      ∧ (∀ f : String × Bucket → List Position,
          all_symbols_in_positions
            (users.map (fun ub => (ub.1, { ub.2 with csp := f ub })))
          = all_symbols_in_positions users)
      ∧ ((∀ ub ∈ users, ub.2.cc = []) →
          all_symbols_in_positions users = ∅
          ∧ refresh_ws_subscriptions subs (all_symbols_in_positions users) = ∅) := by
  intro users subs
  refine ⟨refresh_eq_want _ _, all_symbols_eq_list users, ?_, ?_⟩
  · intro f
    rw [all_symbols_eq_list, all_symbols_eq_list]
    have hlist : ((users.map (fun ub => (ub.1, { ub.2 with csp := f ub }))).map Prod.snd).flatMap
          (fun b => b.cc.map (fun p => _norm_us p.ticker))
        = (users.map Prod.snd).flatMap
          (fun b => b.cc.map (fun p => _norm_us p.ticker)) := by
      induction users with
      | nil => rfl
      | cons a t ih => simp only [List.map_cons, List.flatMap_cons] at ih ⊢; rw [ih]
    rw [hlist]
  · intro hcc
    have hempty : all_symbols_in_positions users = ∅ := by
      rw [all_symbols_eq_list]
      have hlist : (users.map Prod.snd).flatMap
            (fun b => b.cc.map (fun p => _norm_us p.ticker)) = [] := by
        induction users with
        | nil => rfl
        | cons a t ih =>
          simp only [List.map_cons, List.flatMap_cons]
          rw [hcc a (by simp), ih (fun ub hub => hcc ub (by simp [hub]))]
          rfl
      rw [hlist]
      rfl
    exact ⟨hempty, by rw [hempty]; exact refresh_eq_want subs ∅⟩

/-- C5 witness: a store with one user holding only a cash-secured put has an
empty wanted set, and a pass starting from a subscribed symbol unsubscribes
it. -/
theorem c5_wanted_set_reconciliation_witness :
    all_symbols_in_positions [("alice", cspOnlyBucket)] = ∅
    ∧ refresh_ws_subscriptions {"AAPL.US"}
        (all_symbols_in_positions [("alice", cspOnlyBucket)]) = ∅ := by
  have h := c5_wanted_set_reconciliation [("alice", cspOnlyBucket)] {"AAPL.US"}
  exact h.2.2.2 (by intro ub hub; simp only [List.mem_singleton] at hub; subst hub; rfl)


/-! ## Claim C6: closing a position -/

theorem popById_none_iff (l : List Position) (pid : ℤ) :
    popById l pid = none ↔ ∀ p ∈ l, p.id ≠ pid := by
  induction l with
  | nil => simp [popById]
  | cons a t ih =>
    simp only [popById]
    by_cases h : a.id = pid
    · simp [h]
    · cases hrec : popById t pid with
      | some pr => simp [h, hrec, List.forall_mem_cons, ← ih]
      | none => simp [h, hrec, List.forall_mem_cons, ← ih]

theorem popById_some_facts (l : List Position) (pid : ℤ) (q : Position)
    (rest : List Position) (h : popById l pid = some (q, rest)) :
    q.id = pid ∧ rest.length + 1 = l.length ∧ q ∈ l := by
  induction l generalizing rest with
  | nil => simp [popById] at h
  | cons a t ih =>
    simp only [popById] at h
    by_cases ha : a.id = pid
    · rw [if_pos ha] at h
      simp only [Option.some.injEq, Prod.mk.injEq] at h
      obtain ⟨rfl, rfl⟩ := h
      exact ⟨ha, by simp, by simp⟩
    · rw [if_neg ha] at h
      cases hrec : popById t pid with
      | none => rw [hrec] at h; simp at h
      | some pr =>
        obtain ⟨r, l2⟩ := pr
        rw [hrec] at h
        simp only [Option.some.injEq, Prod.mk.injEq] at h
        obtain ⟨rfl, rfl⟩ := h
        have hf := ih l2 hrec
        exact ⟨hf.1, by simp [← hf.2.1], by simp [hf.2.2]⟩

theorem close_pos_found (b : Bucket) (pid : ℤ) (price : Option ℚ) (ts : String)
    (q : Position) (rest : List Position) (hpop : popById b.cc pid = some (q, rest)) :
    close_pos b pid price ts
      = ({ b with cc := rest, closed := b.closed ++ [closeArchived q price ts] },
         some (closeArchived q price ts)) := by
  simp only [close_pos, hpop]

theorem close_sofi_concrete (ts : String) :
    (close_pos sofiBucket 1 (some (7/100)) ts).2
      = some { pos := sofiPos, closed_at := ts, btc_price := some (7/100),
               pnl_pct := some (8939/100) } := by
  have hpnl : pyRound2 (((66:ℚ)/100 - 7/100) / (66/100) * 100) = 8939/100 := by
    rw [show ((66:ℚ)/100 - 7/100) / (66/100) * 100 = 2950/33 by norm_num]
    unfold pyRound2 roundHalfEven
    rw [show (2950/33 : ℚ) * 100 = 295000/33 by norm_num]
    rw [show ⌊(295000 : ℚ)/33⌋ = 8939 by rw [Int.floor_eq_iff]; norm_num]
    norm_num
  have harch : closeArchived sofiPos (some (7/100)) ts
      = { pos := sofiPos, closed_at := ts, btc_price := some (7/100),
          pnl_pct := some (8939/100) } := by
    unfold closeArchived
    simp only [ClosedPosition.mk.injEq, true_and, and_true]
    show ((if sofiPos.entry_credit = 0 then none
        else some ((sofiPos.entry_credit - 7/100) / sofiPos.entry_credit * 100)).map
          pyRound2) = some (8939/100)
    rw [show sofiPos.entry_credit = 66/100 from rfl]
    rw [if_neg (by norm_num : ¬((66:ℚ)/100 = 0))]
    exact congrArg some hpnl
  have hres := close_pos_found sofiBucket 1 (some (7/100)) ts sofiPos [] rfl
  rw [hres, harch]

/-- C6: close_pos with an unknown id returns not-found and leaves the bucket
unchanged; with a known id it removes the first matching position from the
open CC collection, appends the archived row (carrying the closure
timestamp and the supplied close price) to the closed collection, computes
the profit percentage as (entry_credit - close_price) / entry_credit * 100
rounded to two decimals when a close price is supplied, and leaves it null
otherwise; closing the 0.66-credit scenario position at 0.07 yields
89.39. -/
theorem c6_close_pos_spec :
    ∀ (b : Bucket) (pid : ℤ) (price : Option ℚ) (ts : String),
      ((close_pos b pid price ts).2 = none →
        (∀ p ∈ b.cc, p.id ≠ pid) ∧ (close_pos b pid price ts).1 = b)
      ∧ (∀ arch, (close_pos b pid price ts).2 = some arch →
          (close_pos b pid price ts).1.closed = b.closed ++ [arch]
          ∧ (close_pos b pid price ts).1.csp = b.csp
          ∧ arch.closed_at = ts
          ∧ arch.btc_price = price
          ∧ arch.pos.id = pid
          ∧ arch.pos ∈ b.cc
          ∧ (close_pos b pid price ts).1.cc.length + 1 = b.cc.length
          ∧ (price = none → arch.pnl_pct = none)
          ∧ (∀ pr, price = some pr → arch.pos.entry_credit ≠ 0 →
              arch.pnl_pct
                = some (pyRound2
                    ((arch.pos.entry_credit - pr) / arch.pos.entry_credit * 100))))
      ∧ (close_pos sofiBucket 1 (some (7/100)) ts).2
          = some { pos := sofiPos, closed_at := ts, btc_price := some (7/100),
                   pnl_pct := some (8939/100) } := by
  intro b pid price ts
  refine ⟨?_, ?_, close_sofi_concrete ts⟩
  · intro h2
    cases hpop : popById b.cc pid with
    | none =>
      exact ⟨(popById_none_iff b.cc pid).mp hpop, by simp [close_pos, hpop]⟩
    | some pr =>
      obtain ⟨q, rest⟩ := pr
      simp [close_pos, hpop] at h2
  · intro arch harch
    cases hpop : popById b.cc pid with
    | none => simp [close_pos, hpop] at harch
    | some pr =>
      obtain ⟨q, rest⟩ := pr
      have hf := popById_some_facts b.cc pid q rest hpop
      have hres := close_pos_found b pid price ts q rest hpop
      rw [hres] at harch ⊢
      simp only [Option.some.injEq] at harch
      subst harch
      refine ⟨rfl, rfl, rfl, rfl, hf.1, hf.2.2, hf.2.1, ?_, ?_⟩
      · intro hpr; subst hpr; rfl
      · intro pr hpr hcred
        subst hpr
        show ((if q.entry_credit = 0 then none
            else some ((q.entry_credit - pr) / q.entry_credit * 100)).map pyRound2)
          = some (pyRound2 ((q.entry_credit - pr) / q.entry_credit * 100))
        have hcred2 : q.entry_credit ≠ 0 := hcred
        rw [if_neg hcred2]
        rfl

/-- C6 witness: closing an id absent from the open CC collection of the
CSP-only bucket is a not-found result with the bucket unchanged, and the
concrete 0.66 / 0.07 close from the claim yields 89.39. -/
theorem c6_close_pos_spec_witness :
    (close_pos cspOnlyBucket 7 none "tw").1 = cspOnlyBucket
    ∧ (close_pos sofiBucket 1 (some (7/100)) "tw").2
        = some { pos := sofiPos, closed_at := "tw", btc_price := some (7/100),
                 pnl_pct := some (8939/100) } := by
  have h := c6_close_pos_spec cspOnlyBucket 7 none "tw"
  have h2 := c6_close_pos_spec sofiBucket 1 (some (7/100)) "tw"
  exact ⟨(h.1 rfl).2, h2.2.2⟩

/-! ## Claim C7: loading a bad store file -/

/-- C7: _load is a total function (nothing escapes to the caller), and every
failure mode of the claim yields the empty store: an unreadable file, a
file whose stripped text is empty, a file json.loads cannot parse, and a
parse result that is not a dict; in particular a zero-byte file loads as
the empty store. -/
theorem c7_load_fail_open :
    ∀ (parse : String → Option JValue) (t : String),
      _load parse none = emptyStoreJ
      ∧ (String.mk (pyStrip t.data) = "" → _load parse (some t) = emptyStoreJ)
      ∧ (String.mk (pyStrip t.data) ≠ "" →
          parse (String.mk (pyStrip t.data)) = none → _load parse (some t) = emptyStoreJ)
      ∧ (∀ v, String.mk (pyStrip t.data) ≠ "" →
          parse (String.mk (pyStrip t.data)) = some v → isJObj v = false →
          _load parse (some t) = emptyStoreJ)
      ∧ _load parse (some "") = emptyStoreJ := by
  intro parse t
  refine ⟨rfl, ?_, ?_, ?_, rfl⟩
  · intro h
    simp only [_load]
    rw [if_pos h]
    rfl
  · intro hne hp
    simp only [_load]
    rw [if_neg hne, hp]
    rfl
  · intro v hne hp hno
    simp only [_load]
    rw [if_neg hne, hp]
    cases v with
    | jobj fs => simp [isJObj] at hno
    | jnull => rfl
    | jbool b => rfl
    | jnum q => rfl
    | jstr s => rfl
    | jarr elems => rfl

/-- C7 witness: a parse oracle that always fails (corrupt file) on concrete
text, and an unreadable file, both load as the empty store. -/
theorem c7_load_fail_open_witness :
    _load (fun _ => none) (some "junk") = emptyStoreJ
    ∧ _load (fun _ => none) none = emptyStoreJ := by
  have h := c7_load_fail_open (fun _ => none) "junk"
  exact ⟨h.2.2.1 (by decide) rfl, h.1⟩

/-! ## Claim C9: a malformed expiry aborts add_pos with no state change -/

/-- C9: whenever parse_exp_str rejects the expiry string, add_pos raises
that error to the caller and the persisted bucket is exactly as before: no
position is appended to any collection. -/
theorem c9_add_pos_invalid_expiry :
    ∀ (b : Bucket) (t : String) (s : ℚ) (c : ℤ) (e : String) (cr : ℚ)
      (ts msg : String),
      parse_exp_str e = Except.error msg →
      add_pos b t s c e cr ts = (b, Except.error msg) := by
  intro b t s c e cr ts msg h
  simp only [add_pos, iso_exp_str, h]

/-- C9 witness: the concrete malformed expiry "garbage" is rejected by every
accepted format, and add_pos on the empty bucket returns the error with the
bucket unchanged. -/
theorem c9_add_pos_invalid_expiry_witness :
    parse_exp_str "garbage" = Except.error expiryErrMsg
    ∧ add_pos ⟨[], [], []⟩ "SOFI" 30 2 "garbage" (1/2) "t"
      = (⟨[], [], []⟩, Except.error expiryErrMsg) := by
  refine ⟨rfl, ?_⟩
  exact c9_add_pos_invalid_expiry ⟨[], [], []⟩ "SOFI" 30 2 "garbage" (1/2) "t"
    expiryErrMsg rfl

/-! ## Claim C10: remove, edit and close only touch the open CC collection -/

/-- C10: rm_pos, edit_pos and close_pos never change the cash-secured-put
collection, and an id that is absent from the open CC collection — in
particular one present only in the CSP collection — yields a not-found
result (false, false, none respectively) from each of them, with the
bucket unchanged. -/
theorem c10_ops_touch_only_cc :
    ∀ (b : Bucket) (pid : ℤ) (tk : Option String) (sk : Option ℚ) (ct : Option ℤ)
      (ex : Option String) (cr : Option ℚ) (price : Option ℚ) (ts : String),
      (rm_pos b pid).1.csp = b.csp
      ∧ (edit_pos b pid tk sk ct ex cr).1.csp = b.csp
      ∧ (close_pos b pid price ts).1.csp = b.csp
      ∧ (pid ∈ b.csp.map (fun p => p.id) → (∀ p ∈ b.cc, p.id ≠ pid) →
          rm_pos b pid = (b, false)
          ∧ edit_pos b pid tk sk ct ex cr = (b, Except.ok false)
          ∧ close_pos b pid price ts = (b, none)) := by
  intro b pid tk sk ct ex cr price ts
  refine ⟨rfl, ?_, ?_, ?_⟩
  · simp only [edit_pos]
    cases _find_pos b pid with
    | none => rfl
    | some q =>
      cases ex with
      | none => rfl
      | some e =>
        cases h2 : iso_exp_str e with
        | error m => simp only [h2]; rfl
        | ok iso => simp only [h2]; rfl
  · simp only [close_pos]
    cases hpop : popById b.cc pid with
    | none => rfl
    | some pr => obtain ⟨q, rest⟩ := pr; rfl
  · intro _ hnotcc
    have hfilter : b.cc.filter (fun p => p.id ≠ pid) = b.cc := by
      rw [List.filter_eq_self]
      intro p hp
      simpa using hnotcc p hp
    have hfind : _find_pos b pid = none := by
      unfold _find_pos
      rw [List.find?_eq_none]
      intro p hp
      simpa using hnotcc p hp
    have hpop : popById b.cc pid = none := (popById_none_iff b.cc pid).mpr hnotcc
    refine ⟨?_, ?_, ?_⟩
    · simp only [rm_pos, hfilter]
      rw [show ({ b with cc := b.cc } : Bucket) = b from rfl]
      simp
    · simp only [edit_pos, hfind]
    · simp only [close_pos, hpop]

/-- C10 witness: on a bucket whose only position is a CSP with id 1, each of
the three operations reports not-found and returns the bucket untouched. -/
theorem c10_ops_touch_only_cc_witness :
    rm_pos cspOnlyBucket 1 = (cspOnlyBucket, false)
    ∧ edit_pos cspOnlyBucket 1 none none none none none
      = (cspOnlyBucket, Except.ok false)
    ∧ close_pos cspOnlyBucket 1 none "tw" = (cspOnlyBucket, none) := by
  have h := c10_ops_touch_only_cc cspOnlyBucket 1 none none none none none none "tw"
  exact h.2.2.2 (by decide) (by intro p hp; simp [cspOnlyBucket] at hp)

end Bot
